import Mathlib

/-
Verification of the FLC-analyzer waveform segmentation and parameter-extraction
core (src/data_manager.py and src/region.py) against its specification.

Modelling conventions.
The Python code computes with IEEE floats; the model idealizes every float to an
exact rational number, represented by the type `Fr` below: an unnormalized
fraction with an integer numerator and a positive natural denominator.  `Fr` is
used instead of `ℚ` so that every concrete pipeline run reduces inside the
kernel (`decide`); the interpretation maps `Fr.toRat : Fr → ℚ` and
`Fr.toReal : Fr → ℝ` relate the model to the mathematical values, and the
homomorphism lemmas further below show that `Fr` arithmetic is exact rational
arithmetic.  Python exceptions (IndexError, ZeroDivisionError, numpy's
ValueError) are modelled by `Except PyErr`; Python's negative-index wrapping on
list subscripts is modelled faithfully by `pyGet`.  Unbounded `while` loops are
given explicit structural fuel; the fuel supplied at every call site exceeds the
number of iterations the Python loop can perform before the list subscript
raises, so the `fuelExhausted` outcome is unreachable and serves only to make
the recursion structural.
-/

namespace FLC

/-- Exact unnormalized fraction standing for a Python float value. -/
structure Fr where
  num : Int
  den : Nat
  dpos : 0 < den

instance : OfNat Fr n := ⟨⟨(n : Int), 1, Nat.one_pos⟩⟩

def Fr.add (a b : Fr) : Fr :=
  ⟨a.num * (b.den : Int) + b.num * (a.den : Int), a.den * b.den, Nat.mul_pos a.dpos b.dpos⟩

def Fr.sub (a b : Fr) : Fr :=
  ⟨a.num * (b.den : Int) - b.num * (a.den : Int), a.den * b.den, Nat.mul_pos a.dpos b.dpos⟩

def Fr.mul (a b : Fr) : Fr :=
  ⟨a.num * b.num, a.den * b.den, Nat.mul_pos a.dpos b.dpos⟩

def Fr.neg (a : Fr) : Fr := ⟨-a.num, a.den, a.dpos⟩

/-- Exact division; division by a zero value yields the zero fraction, matching
the `x / 0 = 0` convention of `ℚ` (call sites that can divide by zero in Python
go through `pyDiv`, which raises instead). -/
def Fr.div (a b : Fr) : Fr :=
  if h : b.num = 0 then ⟨0, 1, Nat.one_pos⟩
  else if b.num < 0 then
    ⟨-(a.num * (b.den : Int)), a.den * b.num.natAbs,
      Nat.mul_pos a.dpos (Int.natAbs_pos.mpr h)⟩
  else
    ⟨a.num * (b.den : Int), a.den * b.num.natAbs,
      Nat.mul_pos a.dpos (Int.natAbs_pos.mpr h)⟩

instance : Add Fr := ⟨Fr.add⟩
instance : Sub Fr := ⟨Fr.sub⟩
instance : Mul Fr := ⟨Fr.mul⟩
instance : Neg Fr := ⟨Fr.neg⟩
instance : Div Fr := ⟨Fr.div⟩

instance : LE Fr := ⟨fun a b => a.num * (b.den : Int) ≤ b.num * (a.den : Int)⟩
instance : LT Fr := ⟨fun a b => a.num * (b.den : Int) < b.num * (a.den : Int)⟩

instance (a b : Fr) : Decidable (a ≤ b) :=
  inferInstanceAs (Decidable (a.num * (b.den : Int) ≤ b.num * (a.den : Int)))

instance (a b : Fr) : Decidable (a < b) :=
  inferInstanceAs (Decidable (a.num * (b.den : Int) < b.num * (a.den : Int)))

instance : DecidableEq Fr := fun a b =>
  decidable_of_iff (a.num = b.num ∧ a.den = b.den)
    (by cases a; cases b; simp)

noncomputable def Fr.toRat (a : Fr) : ℚ := (a.num : ℚ) / (a.den : ℚ)

noncomputable def Fr.toReal (a : Fr) : ℝ := (a.num : ℝ) / (a.den : ℝ)

/-- Python / numpy failure outcomes relevant to the pipeline. -/
inductive PyErr where
  | indexError
  | zeroDivisionError
  | valueError
  | fuelExhausted
deriving DecidableEq

abbrev Res (α : Type) := Except PyErr α

instance {ε α : Type} [DecidableEq ε] [DecidableEq α] :
    DecidableEq (Except ε α) := fun x y =>
  match x, y with
  | .ok a, .ok b => decidable_of_iff (a = b) (by simp)
  | .error a, .error b => decidable_of_iff (a = b) (by simp)
  | .ok _, .error _ => isFalse (by simp)
  | .error _, .ok _ => isFalse (by simp)

/-- Python list subscript `xs[i]`: a negative index wraps once from the end of
the list; an index out of range after wrapping raises IndexError. -/
def pyGet {α : Type} (xs : List α) (i : Int) : Res α :=
  let j : Int := if i < 0 then i + (xs.length : Int) else i
  if h : 0 ≤ j ∧ j < (xs.length : Int) then
    .ok (xs.get ⟨j.toNat, by omega⟩)
  else
    .error .indexError

/-- Python `max(xs)`: scans left to right keeping the first maximal element;
raises ValueError on an empty list. -/
def pyMax (xs : List Fr) : Res Fr :=
  match xs with
  | [] => .error .valueError
  | x :: rest => .ok (rest.foldl (fun acc y => if acc < y then y else acc) x)

/-- Python `min(xs)`. -/
def pyMin (xs : List Fr) : Res Fr :=
  match xs with
  | [] => .error .valueError
  | x :: rest => .ok (rest.foldl (fun acc y => if y < acc then y else acc) x)

/-- Python float division `a / b`: raises ZeroDivisionError when `b` is zero. -/
def pyDiv (a b : Fr) : Res Fr :=
  if b.num = 0 then .error .zeroDivisionError else .ok (a / b)

/-- Python `sum(xs)` on a list of floats. -/
def sumList (xs : List Fr) : Fr := xs.foldl Fr.add 0

/-- Total list lookup with default value 0, used where the Python index is
already known to be in range (see the callers for the range argument). -/
def nthF (xs : List Fr) (n : Nat) : Fr := xs.getD n 0

/-- `np.gradient(v, t)` (second-order accurate, one-sided first-order at the two
boundary samples, the weighted central-difference formula for possibly uneven
spacing in the interior).  numpy raises ValueError when the array is shorter
than two samples or when the coordinate array length does not match. -/
def npGradient (v t : List Fr) : Res (List Fr) :=
  if v.length < 2 ∨ v.length ≠ t.length then .error .valueError
  else
    .ok ((List.range v.length).map (fun i =>
      if i = 0 then
        (nthF v 1 - nthF v 0) / (nthF t 1 - nthF t 0)
      else if i = v.length - 1 then
        (nthF v i - nthF v (i - 1)) / (nthF t i - nthF t (i - 1))
      else
        let hs := nthF t i - nthF t (i - 1)
        let hd := nthF t (i + 1) - nthF t i
        (hd * hd * nthF v (i + 1) + (hs * hs - hd * hd) * nthF v i
            - hs * hs * nthF v (i - 1)) / (hs * hd * (hs + hd))))

/-- The derivative sample the extremum scan compares against:
`dv_dt[i - 1]`, which for `i = 0` is Python's `dv_dt[-1]`, the last sample. -/
def extPrev (dv_dt : List Fr) (i : Nat) : Fr :=
  if i = 0 then nthF dv_dt (dv_dt.length - 1) else nthF dv_dt (i - 1)

/-- Mutable state of the extremum scan in `DataManager.load_data`
(`ext_indexes`, `local_max_index`, `local_min_index`; data_manager.py:80-83).
The indexes are Python ints, and the initial value 0 of the two candidate
variables doubles as the "no pending candidate" sentinel. -/
structure ExtScanState where
  ext_indexes : List Int
  local_max_index : Int
  local_min_index : Int

/-- One iteration of the extremum scan (data_manager.py:99-113). -/
def extStep (dv_dt : List Fr) (max_threshold min_threshold : Fr)
    (s : ExtScanState) (i : Nat) : ExtScanState :=
  if max_threshold < nthF dv_dt i then
    if extPrev dv_dt i < nthF dv_dt i then { s with local_max_index := (i : Int) }
    else s
  else if nthF dv_dt i < min_threshold then
    if nthF dv_dt i < extPrev dv_dt i then { s with local_min_index := (i : Int) }
    else s
  else
    let s1 :=
      if s.local_max_index ≠ 0 then
        { s with ext_indexes := s.ext_indexes ++ [s.local_max_index],
                 local_max_index := 0 }
      else s
    if s1.local_min_index ≠ 0 then
      { s1 with ext_indexes := s1.ext_indexes ++ [s1.local_min_index],
                local_min_index := 0 }
    else s1

/-- The extremum-index list produced by the scan `for i in range(len(time))`
(data_manager.py:99-113).  All three lists have the same length by the time
this runs (`np.gradient` enforces it), so the total `nthF` lookups agree with
the Python subscripts. -/
def extScan (dv_dt : List Fr) (max_threshold min_threshold : Fr) (n : Nat) :
    List Int :=
  ((List.range n).foldl (extStep dv_dt max_threshold min_threshold)
    ⟨[], 0, 0⟩).ext_indexes

/-- Backward border walk for a positive extremum (data_manager.py:119-126):
`while True: if dv_dt[j-1] <= 0: append j; break else j -= 1`.  The subscript
`dv_dt[j-1]` wraps at `j = 0` and raises IndexError once `j - 1` falls below
`-len(dv_dt)`; the fuel supplied by the caller exceeds the number of steps
either exit can take. -/
def whileBorderUp (dv_dt : List Fr) : Nat → Int → Res Int
  | 0, _ => .error .fuelExhausted
  | fuel + 1, j => do
      let d ← pyGet dv_dt (j - 1)
      if d ≤ 0 then pure j else whileBorderUp dv_dt fuel (j - 1)

/-- Backward border walk for a negative extremum (data_manager.py:129-136):
stops when `dv_dt[j-1] >= 0`. -/
def whileBorderDown (dv_dt : List Fr) : Nat → Int → Res Int
  | 0, _ => .error .fuelExhausted
  | fuel + 1, j => do
      let d ← pyGet dv_dt (j - 1)
      if 0 ≤ d then pure j else whileBorderDown dv_dt fuel (j - 1)

/-- The border-collection loop `for i in range(ext_indexes[0], len(time))`
(data_manager.py:116-139).  The body runs for index `i`, then breaks once
`i > ext_indexes[-1]`. -/
def borderLoop (dv_dt : List Fr) (ext_indexes : List Int) (extLast : Int)
    (n : Nat) : Nat → Int → List Int → Res (List Int)
  | 0, _, _ => .error .fuelExhausted
  | fuel + 1, i, bor_indexes =>
    if i < (n : Int) then do
      let bor2 ←
        if i ∈ ext_indexes then do
          let dvi ← pyGet dv_dt i
          let bor1 ←
            if 0 < dvi then do
              let j ← whileBorderUp dv_dt (2 * dv_dt.length + 2) i
              pure (bor_indexes ++ [j])
            else pure bor_indexes
          if dvi < 0 then do
            let j ← whileBorderDown dv_dt (2 * dv_dt.length + 2) i
            pure (bor1 ++ [j])
          else pure bor1
        else pure bor_indexes
      if extLast < i then pure bor2
      else borderLoop dv_dt ext_indexes extLast n fuel (i + 1) bor2
    else pure bor_indexes

/-- `np.radians(x)`: degrees to radians. -/
noncomputable def npRadians (x : Fr) : ℝ := x.toReal * Real.pi / 180

/-- A monotonic sub-waveform with its derived quantities (region.py:7-29).
All float attributes are modelled by `Fr`, except the tilt angle, which the
code stores in radians (an irrational multiple of pi) and is therefore
modelled by a real number. -/
structure Region where
  time : List Fr
  voltage : List Fr
  increasing : Bool
  knee_point_time : Fr
  knee_point_voltage : Fr
  t40_time : Fr
  t40_voltage : Fr
  t60_time : Fr
  t60_voltage : Fr
  u_p : Fr
  u_c : Fr
  tau : Fr
  alpha : Fr
  u_in : Fr
  d : Fr
  S : Fr
  C : Fr
  t_ang : ℝ
  s_p : Fr
  e0 : Fr

/-- Entry scan (region.py:52-55 rising, 135-138 falling):
`for i in range(p, len(time)): if dv_dt[i] > max_threshold: p = i; break`
(`<` against `min_threshold` in the falling case, selected by `up`).
Falls through with `p` unchanged when no sample passes the threshold. -/
def pScanLoop (dv_dt : List Fr) (n : Nat) (th : Fr) (up : Bool) :
    Nat → Nat → Nat → Res Nat
  | 0, _, _ => .error .fuelExhausted
  | fuel + 1, i, p =>
    if i < n then do
      let d ← pyGet dv_dt (i : Int)
      if (if up then th < d else d < th) then pure i
      else pScanLoop dv_dt n th up fuel (i + 1) p
    else pure p

/-- Pike climb (region.py:59-64 rising, 142-147 falling): starting at `p + 1`,
move `p` to `i` whenever the derivative is still more extreme than at `i - 1`,
and break once it falls back across the threshold.  Both tests run on every
iteration, so `p` can be updated on the same pass that breaks. -/
def pikeLoop (dv_dt : List Fr) (n : Nat) (th : Fr) (up : Bool) :
    Nat → Nat → Nat → Res Nat
  | 0, _, _ => .error .fuelExhausted
  | fuel + 1, i, p =>
    if i < n then do
      let d ← pyGet dv_dt (i : Int)
      let dprev ← pyGet dv_dt ((i : Int) - 1)
      let p1 := if (if up then dprev < d else d < dprev) then i else p
      if (if up then d < th else th < d) then pure p1
      else pikeLoop dv_dt n th up fuel (i + 1) p1
    else pure p

/-- Knee-point scan (region.py:68-72 rising, 151-155 falling):
`for i in range(p, len(time)): if dv_dt[i+1] > dv_dt[i]: p = i; k = i; break`
(reversed comparison in the falling case).  The subscript `dv_dt[i + 1]` is
evaluated first and raises IndexError at the last sample; on fall-through the
incoming `(p, k)` pair is returned unchanged. -/
def kneeLoop (dv_dt : List Fr) (n : Nat) (up : Bool) :
    Nat → Nat → (Nat × Nat) → Res (Nat × Nat)
  | 0, _, _ => .error .fuelExhausted
  | fuel + 1, i, pk =>
    if i < n then do
      let dnext ← pyGet dv_dt ((i : Int) + 1)
      let d ← pyGet dv_dt (i : Int)
      if (if up then d < dnext else dnext < d) then pure (i, i)
      else kneeLoop dv_dt n up fuel (i + 1) pk
    else pure pk

/-- t40/t60 marker scan (region.py:87-103 rising, 170-186 falling):
skip samples on the near side of the threshold, and at the first sample on the
far side record `(time[i], voltage[i], i)`; `none` when the scan falls through
without finding one (the marker attributes then keep their initial value 0). -/
def markerLoop (time voltage : List Fr) (n : Nat) (th : Fr) (up : Bool) :
    Nat → Nat → Res (Option (Fr × Fr × Nat))
  | 0, _ => .error .fuelExhausted
  | fuel + 1, i =>
    if i < n then do
      let v ← pyGet voltage (i : Int)
      if (if up then v < th else th < v) then
        markerLoop time voltage n th up fuel (i + 1)
      else do
        let t ← pyGet time (i : Int)
        pure (some (t, v, i))
    else pure none

/-- Normalization loop (region.py:118-132 rising, 201-215 falling): from the
knee index onward, skip samples inside the 5 percent guard bands and samples
strictly between the t40 and t60 times, and normalize the rest to
`u = (±(voltage[i] - knee_voltage)) / (0.5 * u_p) - 1`, collecting
`(t_norm, u_norm)`.  The division raises ZeroDivisionError when `u_p = 0`. -/
def normLoop (time voltage : List Fr) (n : Nat)
    (lowTh highTh t40t t60t kneeT kneeV u_p : Fr) (up : Bool) :
    Nat → Nat → List Fr × List Fr → Res (List Fr × List Fr)
  | 0, _, _ => .error .fuelExhausted
  | fuel + 1, i, acc =>
    if i < n then do
      let v ← pyGet voltage (i : Int)
      if (if up then v < lowTh else highTh < v) then
        normLoop time voltage n lowTh highTh t40t t60t kneeT kneeV u_p up fuel
          (i + 1) acc
      else if (if up then highTh < v else v < lowTh) then
        normLoop time voltage n lowTh highTh t40t t60t kneeT kneeV u_p up fuel
          (i + 1) acc
      else do
        let ti ← pyGet time (i : Int)
        if t40t < ti ∧ ti < t60t then
          normLoop time voltage n lowTh highTh t40t t60t kneeT kneeV u_p up fuel
            (i + 1) acc
        else do
          let t := ti - kneeT
          let u0 := (if up then v - kneeV else kneeV - v)
          let u1 ← pyDiv u0 (((5 : Fr) / 10) * u_p)
          let u := u1 - 1
          normLoop time voltage n lowTh highTh t40t t60t kneeT kneeV u_p up fuel
            (i + 1) (acc.1 ++ [t], acc.2 ++ [u])
    else pure acc

/-- Point-wise alpha table (region.py:221-225):
`a = 1 - (u_norm_diff[i] * tau) / (1 - u_norm[i]**2); b = 1 / u_norm[i]`.
Both divisions are modelled by `pyDiv`; note that in the code the first
quotient has a numpy-float numerator, so numpy would yield an infinity there
instead of raising — the distinction is immaterial because the retained
normalized samples keep the denominator away from zero. -/
def alphaLoop (u_norm_diff u_norm : List Fr) (tau : Fr) (n : Nat) :
    Nat → Nat → List Fr → Res (List Fr)
  | 0, _, _ => .error .fuelExhausted
  | fuel + 1, i, alpha_table =>
    if i < n then do
      let du ← pyGet u_norm_diff (i : Int)
      let u ← pyGet u_norm (i : Int)
      let q ← pyDiv (du * tau) (1 - u * u)
      let a := 1 - q
      let b ← pyDiv 1 u
      alphaLoop u_norm_diff u_norm tau n fuel (i + 1) (alpha_table ++ [a * b])
    else pure alpha_table

/-- Default tilt angle stored at construction: `np.radians(45.0)`
(region.py:28). -/
noncomputable def defaultTilt : ℝ := npRadians 45

/-- Intermediate quantities produced by one branch of the Region constructor
before the shared alpha stage. -/
structure CoreData where
  knee_t : Fr
  knee_v : Fr
  t40t : Fr
  t40v : Fr
  t60t : Fr
  t60v : Fr
  u_p : Fr
  u_c : Fr
  tau : Fr
  t_norm : List Fr
  u_norm : List Fr

/-- The rising branch of the Region constructor (region.py:50-132). -/
def risingAnalysis (time voltage dv_dt : List Fr)
    (max_voltage min_voltage max_threshold : Fr) : Res CoreData := do
  let n := time.length
  let p1 ← pScanLoop dv_dt n max_threshold true (n + 1) 0 0
  let p2 ← pikeLoop dv_dt n max_threshold true (n + 1) (p1 + 1) p1
  let pk ← kneeLoop dv_dt n true (n + 1) p2 (p2, 0)
  let vp ← pyGet voltage (pk.1 : Int)
  let u_p := max_voltage - vp
  let kneeT ← pyGet time (pk.1 : Int)
  let u_c := vp - min_voltage
  let t40_threshold := min_voltage + u_c + u_p * ((4 : Fr) / 10)
  let t60_threshold := min_voltage + u_c + u_p * ((6 : Fr) / 10)
  let m40 ← markerLoop time voltage n t40_threshold true (n + 1) pk.1
  let t40 := match m40 with
    | some r => r
    | none => ((0 : Fr), (0 : Fr), pk.1)
  let m60 ← markerLoop time voltage n t60_threshold true (n + 1) t40.2.2
  let t60 := match m60 with
    | some r => (r.1, r.2.1)
    | none => ((0 : Fr), (0 : Fr))
  let tau := (t60.1 - t40.1) / ((405465 : Fr) / 1000000)
  let voltage_low_threshold := min_voltage + u_c + u_p * ((5 : Fr) / 100)
  let voltage_high_threshold := min_voltage + u_c + u_p * ((95 : Fr) / 100)
  let tu ← normLoop time voltage n voltage_low_threshold voltage_high_threshold
    t40.1 t60.1 kneeT vp u_p true (n + 1) pk.2 ([], [])
  pure ⟨kneeT, vp, t40.1, t40.2.1, t60.1, t60.2, u_p, u_c, tau, tu.1, tu.2⟩

/-- The falling branch of the Region constructor (region.py:134-215), the
mirror of the rising branch with min/max roles swapped. -/
def fallingAnalysis (time voltage dv_dt : List Fr)
    (max_voltage min_voltage min_threshold : Fr) : Res CoreData := do
  let n := time.length
  let p1 ← pScanLoop dv_dt n min_threshold false (n + 1) 0 0
  let p2 ← pikeLoop dv_dt n min_threshold false (n + 1) (p1 + 1) p1
  let pk ← kneeLoop dv_dt n false (n + 1) p2 (p2, 0)
  let vp ← pyGet voltage (pk.1 : Int)
  let u_p := vp - min_voltage
  let kneeT ← pyGet time (pk.1 : Int)
  let u_c := max_voltage - vp
  let t40_threshold := max_voltage - u_c - u_p * ((4 : Fr) / 10)
  let t60_threshold := max_voltage - u_c - u_p * ((6 : Fr) / 10)
  let m40 ← markerLoop time voltage n t40_threshold false (n + 1) pk.1
  let t40 := match m40 with
    | some r => r
    | none => ((0 : Fr), (0 : Fr), pk.1)
  let m60 ← markerLoop time voltage n t60_threshold false (n + 1) t40.2.2
  let t60 := match m60 with
    | some r => (r.1, r.2.1)
    | none => ((0 : Fr), (0 : Fr))
  let tau := (t60.1 - t40.1) / ((405465 : Fr) / 1000000)
  let voltage_high_threshold := max_voltage - u_c - u_p * ((5 : Fr) / 100)
  let voltage_low_threshold := max_voltage - u_c - u_p * ((95 : Fr) / 100)
  let tu ← normLoop time voltage n voltage_low_threshold voltage_high_threshold
    t40.1 t60.1 kneeT vp u_p false (n + 1) pk.2 ([], [])
  pure ⟨kneeT, vp, t40.1, t40.2.1, t60.1, t60.2, u_p, u_c, tau, tu.1, tu.2⟩

/-- `Region.__init__` (region.py:9-228): branch analysis followed by the
shared alpha estimation (differentiate the normalized curve, fill the
point-wise alpha table, average it). -/
noncomputable def regionInit (time voltage dv_dt : List Fr) (increasing : Bool) :
    Res Region := do
  let max_voltage ← pyMax voltage
  let min_voltage ← pyMin voltage
  let max_rise ← pyMax dv_dt
  let max_fall ← pyMin dv_dt
  let percent := (9 : Fr) / 10
  let max_threshold := max_rise * percent
  let min_threshold := max_fall * percent
  let c ←
    if increasing then
      risingAnalysis time voltage dv_dt max_voltage min_voltage max_threshold
    else
      fallingAnalysis time voltage dv_dt max_voltage min_voltage min_threshold
  let u_norm_diff ← npGradient c.u_norm c.t_norm
  let alpha_table ← alphaLoop u_norm_diff c.u_norm c.tau c.t_norm.length
    (c.t_norm.length + 1) 0 []
  let alpha ← pyDiv (sumList alpha_table)
    ⟨(alpha_table.length : Int), 1, Nat.one_pos⟩
  pure { time := time, voltage := voltage, increasing := increasing,
         knee_point_time := c.knee_t, knee_point_voltage := c.knee_v,
         t40_time := c.t40t, t40_voltage := c.t40v,
         t60_time := c.t60t, t60_voltage := c.t60v,
         u_p := c.u_p, u_c := c.u_c, tau := c.tau, alpha := alpha,
         u_in := 10, d := (3 : Fr) / 1000000, S := (100 : Fr) / 1000000,
         C := (30 : Fr) / 1000000000, t_ang := defaultTilt,
         s_p := 0, e0 := (8854 : Fr) / 1000000000000000 }

/-- `Region.is_increasing` (region.py:230-232). -/
def Region.is_increasing (r : Region) : Bool := r.increasing

/-- `Region.update_input_voltage` (region.py:234-236). -/
def Region.update_input_voltage (r : Region) (u_in : Fr) : Region :=
  { r with u_in := u_in }

/-- `Region.update_thickness` (region.py:238-241): micrometers to meters. -/
def Region.update_thickness (r : Region) (d : Fr) : Region :=
  { r with d := d / 1000000 }

/-- `Region.update_area` (region.py:243-246): square millimeters to square
meters. -/
def Region.update_area (r : Region) (S : Fr) : Region :=
  { r with S := S / 1000000 }

/-- `Region.update_capacitance` (region.py:248-251): nanofarads to farads. -/
def Region.update_capacitance (r : Region) (C : Fr) : Region :=
  { r with C := C / 1000000000 }

/-- `Region.update_tilt_angle` (region.py:253-255): degrees to radians. -/
noncomputable def Region.update_tilt_angle (r : Region) (t_ang : Fr) : Region :=
  { r with t_ang := npRadians t_ang }

/-- `Region.get_up` (region.py:257-259). -/
def Region.get_up (r : Region) : Fr := r.u_p

/-- `Region.get_uc` (region.py:261-263). -/
def Region.get_uc (r : Region) : Fr := r.u_c

/-- `Region.get_tau` (region.py:265-269): reported in microseconds. -/
def Region.get_tau (r : Region) : Fr := r.tau * 1000000

/-- `Region.get_alpha` (region.py:271-273). -/
def Region.get_alpha (r : Region) : Fr := r.alpha

/-- `Region.get_sp` (region.py:275-279): recomputes and stores the `s_p`
attribute, then returns it in display units; the updated Region carries the
refreshed cache. -/
def Region.get_sp (r : Region) : Fr × Region :=
  let s_p := (r.u_p * r.C) / (2 * r.S)
  (s_p * 100000, { r with s_p := s_p })

/-- `Region.get_rv` (region.py:281-285): reads the stored `s_p` attribute as
last written by `get_sp` (initially 0). -/
def Region.get_rv (r : Region) : Fr := ((r.tau * r.s_p * r.u_in) / r.d) * 10

/-- `Region.get_da` (region.py:287-291): reads the stored `s_p` attribute as
last written by `get_sp` (initially 0). -/
noncomputable def Region.get_da (r : Region) : ℝ :=
  (r.alpha * r.s_p * r.d).toReal /
    (r.u_in.toReal * r.e0.toReal * Real.sin r.t_ang ^ 2)

/-- `Region.get_borders` (region.py:293-295). -/
def Region.get_borders (r : Region) : Res (List Fr) := do
  let a ← pyGet r.time 0
  let b ← pyGet r.time (-1)
  pure [a, b]

/-- `for j in range(a, b)` over Python ints. -/
def intRange (a b : Int) : List Int :=
  (List.range (b - a).toNat).map (fun k => a + (k : Int))

/-- The slice copy loops of `load_data` (data_manager.py:150-153, 174-177):
`for j in range(buffer, i): out.append(xs[j])`. -/
def sliceRange (xs : List Fr) (a b : Int) : Res (List Fr) :=
  (intRange a b).mapM (pyGet xs)

/-- Mutable state of the monotonic-region loop in `load_data`
(`buffer`, `increasing`, `decreasing` from data_manager.py:84-86 and the
manager's `regions` list the loop appends to). -/
structure RegionScanState where
  buffer : Int
  increasing : Bool
  decreasing : Bool
  regions : List Region

/-- One pass of the monotonic-region loop body for index `i`
(data_manager.py:143-190): at a border with positive derivative, close out a
pending decreasing window and start an increasing one; symmetrically for
negative derivative. -/
noncomputable def regionStep (time voltage dv_dt : List Fr) (bor_indexes : List Int)
    (i : Int) (st : RegionScanState) : Res RegionScanState :=
  if i ∈ bor_indexes then do
    let dvi ← pyGet dv_dt i
    let st1 ←
      if 0 < dvi then
        if st.decreasing then do
          let region_time ← sliceRange time st.buffer i
          let region_voltage ← sliceRange voltage st.buffer i
          let region_dv_dt ← sliceRange dv_dt st.buffer i
          let region ← regionInit region_time region_voltage region_dv_dt false
          pure (RegionScanState.mk i true false (st.regions ++ [region]))
        else pure (RegionScanState.mk i true false st.regions)
      else pure st
    if dvi < 0 then
      if st1.increasing then do
        let region_time ← sliceRange time st1.buffer i
        let region_voltage ← sliceRange voltage st1.buffer i
        let region_dv_dt ← sliceRange dv_dt st1.buffer i
        let region ← regionInit region_time region_voltage region_dv_dt true
        pure (RegionScanState.mk i false true (st1.regions ++ [region]))
      else pure (RegionScanState.mk i false true st1.regions)
    else pure st1
  else pure st

/-- The monotonic-region loop `for i in range(bor_indexes[0], len(time))`
(data_manager.py:142-193): run the body for index `i`, then break once
`i > bor_indexes[-1]`. -/
noncomputable def regionLoop (time voltage dv_dt : List Fr) (bor_indexes : List Int)
    (borLast : Int) (n : Nat) : Nat → Int → RegionScanState → Res (List Region)
  | 0, _, _ => .error .fuelExhausted
  | fuel + 1, i, st =>
    if i < (n : Int) then do
      let st2 ← regionStep time voltage dv_dt bor_indexes i st
      if borLast < i then pure st2.regions
      else regionLoop time voltage dv_dt bor_indexes borLast n fuel (i + 1) st2
    else pure st.regions

/-- The manager owning the Region list (data_manager.py:7-67). -/
structure DataManager where
  regions : List Region
  data_loaded : Bool

/-- `DataManager.__init__` (data_manager.py:61-67). -/
def DataManager.init : DataManager := ⟨[], false⟩

/-- `DataManager.load_data` (data_manager.py:69-196): derivative, thresholds,
extremum scan, backward border walks, monotonic-region windows, Region
construction; finally sets the data-loaded flag.  Note that the freshly built
Regions are appended to whatever `regions` list the manager already holds —
the method never clears it. -/
noncomputable def DataManager.load_data (m : DataManager) (time voltage : List Fr) :
    Res DataManager := do
  let dv_dt ← npGradient voltage time
  let max_rise ← pyMax dv_dt
  let min_fall ← pyMin dv_dt
  let threshold := (8 : Fr) / 10
  let max_threshold := max_rise * threshold
  let min_threshold := min_fall * threshold
  let ext_indexes := extScan dv_dt max_threshold min_threshold time.length
  let ext0 ← pyGet ext_indexes 0
  let extLast ← pyGet ext_indexes (-1)
  let bor_indexes ← borderLoop dv_dt ext_indexes extLast time.length
    (time.length + 1) ext0 []
  let bor0 ← pyGet bor_indexes 0
  let borLast ← pyGet bor_indexes (-1)
  let regions ← regionLoop time voltage dv_dt bor_indexes borLast time.length
    (time.length + 1) bor0 (RegionScanState.mk 0 false false m.regions)
  pure ⟨regions, true⟩

/-- `DataManager.clear_data` (data_manager.py:198-202): empties the Region
list; the `data_loaded` flag is left as it was. -/
def DataManager.clear_data (m : DataManager) : DataManager :=
  { m with regions := [] }

/-- `DataManager.is_data_loaded` (data_manager.py:204-208). -/
def DataManager.is_data_loaded (m : DataManager) : Bool := m.data_loaded

/-- `DataManager.update_input_voltage` (data_manager.py:210-220). -/
def DataManager.update_input_voltage (m : DataManager) (u_in : Fr) :
    DataManager :=
  { m with regions := m.regions.map (fun r => r.update_input_voltage u_in) }

/-- `DataManager.update_thickness` (data_manager.py:222-232). -/
def DataManager.update_thickness (m : DataManager) (d : Fr) : DataManager :=
  { m with regions := m.regions.map (fun r => r.update_thickness d) }

/-- `DataManager.update_area` (data_manager.py:234-244). -/
def DataManager.update_area (m : DataManager) (S : Fr) : DataManager :=
  { m with regions := m.regions.map (fun r => r.update_area S) }

/-- `DataManager.update_capacitance` (data_manager.py:246-256). -/
def DataManager.update_capacitance (m : DataManager) (C : Fr) : DataManager :=
  { m with regions := m.regions.map (fun r => r.update_capacitance C) }

/-- `DataManager.update_tilt_angle` (data_manager.py:258-268). -/
noncomputable def DataManager.update_tilt_angle (m : DataManager) (t_ang : Fr) :
    DataManager :=
  { m with regions := m.regions.map (fun r => r.update_tilt_angle t_ang) }

/-- `DataManager.get_sp` (data_manager.py:270-284): collects `region.get_sp()`
from every Region (each call refreshes that Region's `s_p` attribute) and
divides the sum by the length, raising ZeroDivisionError on an empty list. -/
def DataManager.get_sp (m : DataManager) : Res (Fr × DataManager) := do
  let pairs := m.regions.map Region.get_sp
  let s_p := pairs.map Prod.fst
  let v ← pyDiv (sumList s_p) ⟨(s_p.length : Int), 1, Nat.one_pos⟩
  pure (v, ⟨pairs.map Prod.snd, m.data_loaded⟩)

/-- `DataManager.get_rv` (data_manager.py:286-300). -/
def DataManager.get_rv (m : DataManager) : Res Fr := do
  let r_v := m.regions.map Region.get_rv
  pyDiv (sumList r_v) ⟨(r_v.length : Int), 1, Nat.one_pos⟩

/-- `DataManager.get_da` (data_manager.py:302-316): the per-Region values are
real numbers, so the mean is taken in `ℝ`; an empty Region list still raises
ZeroDivisionError at `sum(d_a) / len(d_a)`. -/
noncomputable def DataManager.get_da (m : DataManager) : Res ℝ :=
  if m.regions.length = 0 then .error .zeroDivisionError
  else .ok ((m.regions.map Region.get_da).sum / (m.regions.length : ℝ))

/-- Unwrap a successful result, with a default for the error case. -/
def resGetD {α : Type} (x : Res α) (d : α) : α :=
  match x with
  | .ok a => a
  | .error _ => d

/-- The error carried by a failed result, if any. -/
def resErr {α : Type} (x : Res α) : Option PyErr :=
  match x with
  | .ok _ => none
  | .error e => some e

/-- Number of Regions held by the manager a load produced, if it succeeded. -/
def loadCount (x : Res DataManager) : Option Nat :=
  match x with
  | .ok m => some m.regions.length
  | .error _ => none

/-- Test waveform time axis: twenty uniformly spaced samples. -/
def timeW : List Fr :=
  [0, 1, 2, 3, 4, 5, 6, 7, 8, 9, 10, 11, 12, 13, 14, 15, 16, 17, 18, 19]

/-- Test waveform voltages: one square-pulse cycle (rise over samples 1-12,
fall from sample 12), shaped so that the rising window contains a proper
derivative peak, a knee point at sample 6, distinct t40/t60 crossings and at
least two retained normalization samples. -/
def voltW : List Fr :=
  [0, 0, 2, 6, 9, 10, (51 : Fr) / 5, (109 : Fr) / 10, (56 : Fr) / 5,
   (23 : Fr) / 2, 12, 12, 12, 11, 7, 2, (1 : Fr) / 2, 0, 0, 0]

/-- The waveform derivative `np.gradient(voltW, timeW)` used by the test
waveform load. -/
def dvW : List Fr := resGetD (npGradient voltW timeW) []

/-- The rising window slice of the test waveform, samples 1 to 11, exactly as
`load_data` cuts it (border indexes 1 and 12). -/
def rtW : List Fr := resGetD (sliceRange timeW 1 12) []

/-- Voltage slice of the rising window. -/
def rvW : List Fr := resGetD (sliceRange voltW 1 12) []

/-- Derivative slice of the rising window. -/
def rdvW : List Fr := resGetD (sliceRange dvW 1 12) []

/-- Fallback Region value for unwrapping (never reached in the statements
below, which pair every unwrap with an explicit success equation). -/
def emptyRegion : Region :=
  ⟨[], [], false, 0, 0, 0, 0, 0, 0, 0, 0, 0, 0, 0, 0, 0, 0, 0, 0, 0⟩

/-- The Region the test-waveform load constructs. -/
noncomputable def rW : Region := resGetD (regionInit rtW rvW rdvW true) emptyRegion

/-- The manager state after loading the test waveform once. -/
noncomputable def mW : DataManager :=
  resGetD (DataManager.load_data DataManager.init timeW voltW) DataManager.init

/-- The manager state after loading the test waveform a second time. -/
noncomputable def mWW : DataManager := resGetD (DataManager.load_data mW timeW voltW) mW


/-- Flat waveform: derivative identically zero, so the extremum scan retains
nothing and `load_data` hits `ext_indexes[0]` on an empty list. -/
def flatT : List Fr := [0, 1, 2, 3]

/-- Flat waveform voltages. -/
def flatV : List Fr := [5, 5, 5, 5]

/-- Waveform whose derivative is positive all the way back to sample 0: the
backward border walk underruns index 0 and wraps to `dv_dt[-1]`. -/
def wrapT : List Fr := [0, 1, 2, 3, 4, 5]

/-- Voltages of the wrap-around waveform: an accelerating rise, then flat. -/
def wrapV : List Fr := [0, 1, 4, 9, 9, 9]

/-- Its derivative. -/
def wrapDv : List Fr := resGetD (npGradient wrapV wrapT) []

/-- Region input whose derivative never turns back up: the knee-point scan
reads `dv_dt[i + 1]` one past the last sample and raises IndexError. -/
def kneeT : List Fr := [0, 1, 2]

/-- Voltages of the knee-overrun region. -/
def kneeV : List Fr := [0, 2, 3]

/-- Its derivative. -/
def kneeDv : List Fr := resGetD (npGradient kneeV kneeT) []

/-- Region input in which every post-knee sample falls in the 5 percent guard
bands, so the retained normalization set is empty and `np.gradient` on the
empty `u_norm` raises ValueError. -/
def exclT : List Fr := [0, 1, 2, 3, 4, 5]

/-- Voltages of the all-excluded region. -/
def exclV : List Fr := [0, 0, 8, 10, 10, (52 : Fr) / 5]

/-- Its derivative. -/
def exclDv : List Fr := resGetD (npGradient exclV exclT) []

/-- Follows the spec's words rather than the code, for comparison with
`whileBorderUp`: the backward border walk of spec 4.1 step 4 with the explicit
bounds check demanded by spec 9 ("guarded with explicit bounds checks that
fail cleanly rather than wrapping"): the walk fails with IndexError as soon as
`j - 1` would precede the first sample, instead of wrapping to the last one. -/
def whileBorderUpGuarded (dv_dt : List Fr) : Nat → Int → Res Int
  | 0, _ => .error .fuelExhausted
  | fuel + 1, j =>
    if j - 1 < 0 then .error .indexError
    else do
      let d ← pyGet dv_dt (j - 1)
      if d ≤ 0 then pure j else whileBorderUpGuarded dv_dt fuel (j - 1)

/-- Index `i` qualifies as a candidate maximum in the extremum scan
(data_manager.py:100-102): the derivative exceeds the scaled threshold and is
larger than at `i - 1` (which wraps to the last sample when `i = 0`). -/
def qualMax (dv_dt : List Fr) (max_threshold : Fr) (i : Nat) : Prop :=
  max_threshold < nthF dv_dt i ∧ extPrev dv_dt i < nthF dv_dt i

/-- Index `i` qualifies as a candidate minimum (data_manager.py:103-105). -/
def qualMin (dv_dt : List Fr) (min_threshold : Fr) (i : Nat) : Prop :=
  nthF dv_dt i < min_threshold ∧ nthF dv_dt i < extPrev dv_dt i

instance (dv_dt : List Fr) (th : Fr) (i : Nat) :
    Decidable (qualMax dv_dt th i) :=
  inferInstanceAs (Decidable (_ ∧ _))

instance (dv_dt : List Fr) (th : Fr) (i : Nat) :
    Decidable (qualMin dv_dt th i) :=
  inferInstanceAs (Decidable (_ ∧ _))

/-- Waveform whose only qualifying extremum sits at sample index 0: a single
downward step right at the start. -/
def sentT : List Fr := [0, 1, 2, 3]

/-- Voltages of the index-0-extremum waveform. -/
def sentV : List Fr := [10, 0, 0, 0]

/-- Its derivative. -/
def sentDv : List Fr := resGetD (npGradient sentV sentT) []


/-
Bridge lemmas: `Fr` arithmetic is exact rational arithmetic.
-/

theorem Fr.den_q_pos (a : Fr) : (0 : ℚ) < (a.den : ℚ) := by
  exact_mod_cast a.dpos

theorem Fr.den_q_ne (a : Fr) : ((a.den : ℚ)) ≠ 0 :=
  ne_of_gt a.den_q_pos

theorem Fr.toRat_mk (n : Int) (d : Nat) (h : 0 < d) :
    (Fr.mk n d h).toRat = (n : ℚ) / (d : ℚ) := rfl

theorem Fr.toRat_ofNat (n : ℕ) : (OfNat.ofNat n : Fr).toRat = (n : ℚ) := by
  show ((n : ℤ) : ℚ) / ((1 : ℕ) : ℚ) = (n : ℚ)
  norm_num

theorem Fr.toRat_add (a b : Fr) : (a + b).toRat = a.toRat + b.toRat := by
  show ((a.num * (b.den : Int) + b.num * (a.den : Int) : ℤ) : ℚ) /
      ((a.den * b.den : ℕ) : ℚ) = (a.num : ℚ) / a.den + (b.num : ℚ) / b.den
  have ha := a.den_q_ne
  have hb := b.den_q_ne
  push_cast
  field_simp

theorem Fr.toRat_sub (a b : Fr) : (a - b).toRat = a.toRat - b.toRat := by
  show ((a.num * (b.den : Int) - b.num * (a.den : Int) : ℤ) : ℚ) /
      ((a.den * b.den : ℕ) : ℚ) = (a.num : ℚ) / a.den - (b.num : ℚ) / b.den
  have ha := a.den_q_ne
  have hb := b.den_q_ne
  push_cast
  field_simp
  ring

theorem Fr.toRat_mul (a b : Fr) : (a * b).toRat = a.toRat * b.toRat := by
  show ((a.num * b.num : ℤ) : ℚ) / ((a.den * b.den : ℕ) : ℚ) =
    (a.num : ℚ) / a.den * ((b.num : ℚ) / b.den)
  have ha := a.den_q_ne
  have hb := b.den_q_ne
  push_cast
  field_simp

theorem Fr.toRat_neg (a : Fr) : (-a).toRat = -a.toRat := by
  show ((-a.num : ℤ) : ℚ) / ((a.den : ℕ) : ℚ) = -((a.num : ℚ) / a.den)
  push_cast
  ring

theorem Fr.toRat_div (a b : Fr) : (a / b).toRat = a.toRat / b.toRat := by
  show (Fr.div a b).toRat = a.toRat / b.toRat
  unfold Fr.div
  split_ifs with h0 hneg
  · show ((0 : ℤ) : ℚ) / ((1 : ℕ) : ℚ) = (a.num : ℚ) / a.den / ((b.num : ℚ) / b.den)
    rw [h0]
    norm_num
  · show ((-(a.num * (b.den : Int)) : ℤ) : ℚ) / ((a.den * b.num.natAbs : ℕ) : ℚ) =
      (a.num : ℚ) / a.den / ((b.num : ℚ) / b.den)
    have habs : ((b.num.natAbs : ℕ) : ℚ) = -(b.num : ℚ) := by
      rw [Int.cast_natAbs, abs_of_neg hneg]
      push_cast
      ring
    have ha := a.den_q_ne
    have hb := b.den_q_ne
    have hnum : ((b.num : ℚ)) ≠ 0 := by exact_mod_cast h0
    push_cast
    rw [habs]
    field_simp
  · show ((a.num * (b.den : Int) : ℤ) : ℚ) / ((a.den * b.num.natAbs : ℕ) : ℚ) =
      (a.num : ℚ) / a.den / ((b.num : ℚ) / b.den)
    have habs : ((b.num.natAbs : ℕ) : ℚ) = (b.num : ℚ) := by
      rw [Int.cast_natAbs, abs_of_nonneg (le_of_not_lt hneg)]
    have ha := a.den_q_ne
    have hb := b.den_q_ne
    have hnum : ((b.num : ℚ)) ≠ 0 := by exact_mod_cast h0
    push_cast
    rw [habs]
    field_simp

theorem Fr.le_iff (a b : Fr) : a ≤ b ↔ a.toRat ≤ b.toRat := by
  show a.num * (b.den : Int) ≤ b.num * (a.den : Int) ↔
    (a.num : ℚ) / (a.den : ℚ) ≤ (b.num : ℚ) / (b.den : ℚ)
  rw [div_le_div_iff₀ a.den_q_pos b.den_q_pos]
  exact_mod_cast Iff.rfl

theorem Fr.lt_iff (a b : Fr) : a < b ↔ a.toRat < b.toRat := by
  show a.num * (b.den : Int) < b.num * (a.den : Int) ↔
    (a.num : ℚ) / (a.den : ℚ) < (b.num : ℚ) / (b.den : ℚ)
  rw [div_lt_div_iff₀ a.den_q_pos b.den_q_pos]
  exact_mod_cast Iff.rfl

theorem Fr.toRat_eq_zero_iff (a : Fr) : a.toRat = 0 ↔ a.num = 0 := by
  rw [Fr.toRat, div_eq_zero_iff]
  constructor
  · intro h
    rcases h with h | h
    · exact_mod_cast h
    · exact absurd h a.den_q_ne
  · intro h
    exact Or.inl (by exact_mod_cast h)

theorem Fr.toReal_def (a : Fr) : a.toReal = ((a.toRat : ℚ) : ℝ) := by
  simp only [Fr.toReal, Fr.toRat]
  push_cast
  ring

theorem Fr.toReal_ofNat (n : ℕ) : (OfNat.ofNat n : Fr).toReal = (n : ℝ) := by
  rw [Fr.toReal_def, Fr.toRat_ofNat]
  push_cast
  ring

theorem sumList_toRat (l : List Fr) :
    (sumList l).toRat = (l.map Fr.toRat).sum := by
  have general : ∀ (l : List Fr) (a : Fr),
      (l.foldl Fr.add a).toRat = a.toRat + (l.map Fr.toRat).sum := by
    intro l
    induction l with
    | nil => intro a; simp
    | cons x t ih =>
        intro a
        have hadd : (Fr.add a x).toRat = a.toRat + x.toRat := Fr.toRat_add a x
        simp only [List.foldl_cons, List.map_cons, List.sum_cons, ih, hadd]
        ring
  have h0 : (0 : Fr).toRat = 0 := by
    rw [Fr.toRat_ofNat 0]
    norm_num
  simp [sumList, general, h0]


theorem pyGet_mem {α : Type} (xs : List α) (i : Int) (q : α)
    (h : pyGet xs i = .ok q) : q ∈ xs := by
  simp only [pyGet] at h
  split at h <;> split at h <;>
    first
      | · injection h with h
          subst h
          exact List.get_mem xs _ _
      | exact Except.noConfusion h

theorem le_foldl_max (rest : List Fr) :
    ∀ x q : Fr, q ∈ x :: rest →
      q.toRat ≤ (rest.foldl (fun acc y => if acc < y then y else acc) x).toRat := by
  induction rest with
  | nil =>
      intro x q hq
      have : q = x := by simpa using hq
      subst this
      exact le_refl _
  | cons y t ih =>
      intro x q hq
      rw [List.foldl_cons]
      have hx : x.toRat ≤ (if x < y then y else x).toRat := by
        split_ifs with hxy
        · exact le_of_lt ((Fr.lt_iff x y).mp hxy)
        · exact le_refl _
      have hy : y.toRat ≤ (if x < y then y else x).toRat := by
        split_ifs with hxy
        · exact le_refl _
        · exact not_lt.mp (fun hc => hxy ((Fr.lt_iff x y).mpr hc))
      have hhead : (if x < y then y else x).toRat ≤
          (t.foldl (fun acc z => if acc < z then z else acc)
            (if x < y then y else x)).toRat :=
        ih _ _ (List.mem_cons_self _ _)
      rcases List.mem_cons.mp hq with hqx | hq1
      · subst hqx
        exact le_trans hx hhead
      · rcases List.mem_cons.mp hq1 with hqy | hqt
        · subst hqy
          exact le_trans hy hhead
        · exact ih _ _ (List.mem_cons_of_mem _ hqt)

theorem foldl_min_le (rest : List Fr) :
    ∀ x q : Fr, q ∈ x :: rest →
      (rest.foldl (fun acc y => if y < acc then y else acc) x).toRat ≤ q.toRat := by
  induction rest with
  | nil =>
      intro x q hq
      have : q = x := by simpa using hq
      subst this
      exact le_refl _
  | cons y t ih =>
      intro x q hq
      rw [List.foldl_cons]
      have hx : (if y < x then y else x).toRat ≤ x.toRat := by
        split_ifs with hxy
        · exact le_of_lt ((Fr.lt_iff y x).mp hxy)
        · exact le_refl _
      have hy : (if y < x then y else x).toRat ≤ y.toRat := by
        split_ifs with hxy
        · exact le_refl _
        · exact not_lt.mp (fun hc => hxy ((Fr.lt_iff y x).mpr hc))
      have hhead : (t.foldl (fun acc z => if z < acc then z else acc)
            (if y < x then y else x)).toRat ≤ (if y < x then y else x).toRat :=
        ih _ _ (List.mem_cons_self _ _)
      rcases List.mem_cons.mp hq with hqx | hq1
      · subst hqx
        exact le_trans hhead hx
      · rcases List.mem_cons.mp hq1 with hqy | hqt
        · subst hqy
          exact le_trans hhead hy
        · exact ih _ _ (List.mem_cons_of_mem _ hqt)

theorem le_pyMax (xs : List Fr) (mx q : Fr) (hmx : pyMax xs = .ok mx)
    (hq : q ∈ xs) : q.toRat ≤ mx.toRat := by
  match xs, hq with
  | x :: rest, hq =>
      simp only [pyMax] at hmx
      injection hmx with hmx
      subst hmx
      exact le_foldl_max rest x q hq

theorem pyMin_le (xs : List Fr) (mn q : Fr) (hmn : pyMin xs = .ok mn)
    (hq : q ∈ xs) : mn.toRat ≤ q.toRat := by
  match xs, hq with
  | x :: rest, hq =>
      simp only [pyMin] at hmn
      injection hmn with hmn
      subst hmn
      exact foldl_min_le rest x q hq

theorem bind_ok_iff {α β : Type} (x : Res α) (f : α → Res β) (b : β) :
    (x >>= f) = .ok b ↔ ∃ a, x = .ok a ∧ f a = .ok b := by
  cases x with
  | ok a => simp [Bind.bind, Except.bind]
  | error e => simp [Bind.bind, Except.bind]

theorem map_ok_iff {α β : Type} (f : α → β) (x : Res α) (b : β) :
    Except.map f x = .ok b ↔ ∃ a, x = .ok a ∧ f a = b := by
  cases x with
  | ok a => simp [Except.map]
  | error e => simp [Except.map]


theorem extStep_sentinel (dv_dt : List Fr) (maxTh minTh : Fr) (i : Nat)
    (h : (qualMax dv_dt maxTh i ∨ qualMin dv_dt minTh i) → i = 0) :
    extStep dv_dt maxTh minTh ⟨[], 0, 0⟩ i = ⟨[], 0, 0⟩ := by
  unfold extStep
  by_cases h1 : maxTh < nthF dv_dt i
  · by_cases h2 : extPrev dv_dt i < nthF dv_dt i
    · have hi : i = 0 := h (Or.inl ⟨h1, h2⟩)
      subst hi
      simp [h1, h2]
    · simp [h1, h2]
  · by_cases h3 : nthF dv_dt i < minTh
    · by_cases h4 : nthF dv_dt i < extPrev dv_dt i
      · have hi : i = 0 := h (Or.inr ⟨h3, h4⟩)
        subst hi
        simp [h1, h3, h4]
      · simp [h1, h3, h4]
    · simp [h1, h3]

theorem extScan_sentinel_aux (dv_dt : List Fr) (maxTh minTh : Fr)
    (l : List Nat)
    (h : ∀ i ∈ l, (qualMax dv_dt maxTh i ∨ qualMin dv_dt minTh i) → i = 0) :
    l.foldl (extStep dv_dt maxTh minTh) ⟨[], 0, 0⟩ = ⟨[], 0, 0⟩ := by
  induction l with
  | nil => rfl
  | cons a t ih =>
      rw [List.foldl_cons,
        extStep_sentinel dv_dt maxTh minTh a (h a (List.mem_cons_self a t))]
      exact ih (fun i hi => h i (List.mem_cons_of_mem a hi))

/-- C10: in the extremum scan, index 0 doubles as the no-pending-candidate
sentinel for both candidate variables, so a qualifying derivative extremum at
sample index 0 is never flushed into `ext_indexes`: whenever every qualifying
index of the waveform's derivative is index 0, the scan retains nothing, and
`load_data` consequently stops with the IndexError at `ext_indexes[0]` rather
than detecting any extremum. -/
theorem c10_index0_sentinel (time voltage dv_dt : List Fr) (m : DataManager)
    (mx mn : Fr)
    (hg : npGradient voltage time = .ok dv_dt)
    (hmx : pyMax dv_dt = .ok mx) (hmn : pyMin dv_dt = .ok mn)
    (hq : ∀ i, i < time.length →
      (qualMax dv_dt (mx * ((8 : Fr) / 10)) i ∨
       qualMin dv_dt (mn * ((8 : Fr) / 10)) i) → i = 0) :
    extScan dv_dt (mx * ((8 : Fr) / 10)) (mn * ((8 : Fr) / 10)) time.length
        = [] ∧
    DataManager.load_data m time voltage = .error .indexError := by
  have hscan : extScan dv_dt (mx * ((8 : Fr) / 10)) (mn * ((8 : Fr) / 10))
      time.length = [] := by
    unfold extScan
    rw [extScan_sentinel_aux dv_dt _ _ (List.range time.length)
      (fun i hi => hq i (List.mem_range.mp hi))]
  refine ⟨hscan, ?_⟩
  unfold DataManager.load_data
  simp only [hg, hmx, hmn, Bind.bind, Except.bind, hscan]
  rfl

/-- Closed witness for `c10_index0_sentinel`: on the step waveform `sentV`
the only qualifying extremum index is 0, the scan output is empty and the
load fails with IndexError. -/
theorem c10_index0_sentinel_witness :
    (∀ i, i < sentT.length →
      (qualMax sentDv ((resGetD (pyMax sentDv) 0) * ((8 : Fr) / 10)) i ∨
       qualMin sentDv ((resGetD (pyMin sentDv) 0) * ((8 : Fr) / 10)) i) →
        i = 0) ∧
    extScan sentDv ((resGetD (pyMax sentDv) 0) * ((8 : Fr) / 10))
      ((resGetD (pyMin sentDv) 0) * ((8 : Fr) / 10)) sentT.length = [] ∧
    DataManager.load_data DataManager.init sentT sentV
      = .error .indexError :=
  ⟨by decide,
   c10_index0_sentinel sentT sentV sentDv DataManager.init
     (resGetD (pyMax sentDv) 0) (resGetD (pyMin sentDv) 0)
     (by decide) (by decide) (by decide) (by decide)⟩


theorem pure_ok_iff {α : Type} (a b : α) : (pure a : Res α) = .ok b ↔ a = b := by
  show Except.ok a = Except.ok b ↔ a = b
  constructor
  · intro h
    exact Except.ok.inj h
  · intro h
    rw [h]

theorem risingAnalysis_nonneg (t v dv : List Fr) (mx mn th : Fr) (c : CoreData)
    (hmx : pyMax v = .ok mx) (hmn : pyMin v = .ok mn)
    (h : risingAnalysis t v dv mx mn th = .ok c) :
    0 ≤ c.u_p.toRat ∧ 0 ≤ c.u_c.toRat := by
  simp only [risingAnalysis] at h
  rw [bind_ok_iff] at h; obtain ⟨p1, hp1, h⟩ := h
  rw [bind_ok_iff] at h; obtain ⟨p2, hp2, h⟩ := h
  rw [bind_ok_iff] at h; obtain ⟨pk, hpk, h⟩ := h
  rw [bind_ok_iff] at h; obtain ⟨vp, hvp, h⟩ := h
  rw [bind_ok_iff] at h; obtain ⟨kneeT, hkT, h⟩ := h
  rw [bind_ok_iff] at h; obtain ⟨m40, hm40, h⟩ := h
  rw [bind_ok_iff] at h; obtain ⟨m60, hm60, h⟩ := h
  rw [bind_ok_iff] at h; obtain ⟨tu, htu, h⟩ := h
  rw [pure_ok_iff] at h
  subst h
  have hmem : vp ∈ v := pyGet_mem v _ vp hvp
  constructor
  · show 0 ≤ (mx - vp).toRat
    rw [Fr.toRat_sub]
    exact sub_nonneg.mpr (le_pyMax v mx vp hmx hmem)
  · show 0 ≤ (vp - mn).toRat
    rw [Fr.toRat_sub]
    exact sub_nonneg.mpr (pyMin_le v mn vp hmn hmem)

theorem fallingAnalysis_nonneg (t v dv : List Fr) (mx mn th : Fr)
    (c : CoreData)
    (hmx : pyMax v = .ok mx) (hmn : pyMin v = .ok mn)
    (h : fallingAnalysis t v dv mx mn th = .ok c) :
    0 ≤ c.u_p.toRat ∧ 0 ≤ c.u_c.toRat := by
  simp only [fallingAnalysis] at h
  rw [bind_ok_iff] at h; obtain ⟨p1, hp1, h⟩ := h
  rw [bind_ok_iff] at h; obtain ⟨p2, hp2, h⟩ := h
  rw [bind_ok_iff] at h; obtain ⟨pk, hpk, h⟩ := h
  rw [bind_ok_iff] at h; obtain ⟨vp, hvp, h⟩ := h
  rw [bind_ok_iff] at h; obtain ⟨kneeT, hkT, h⟩ := h
  rw [bind_ok_iff] at h; obtain ⟨m40, hm40, h⟩ := h
  rw [bind_ok_iff] at h; obtain ⟨m60, hm60, h⟩ := h
  rw [bind_ok_iff] at h; obtain ⟨tu, htu, h⟩ := h
  rw [pure_ok_iff] at h
  subst h
  have hmem : vp ∈ v := pyGet_mem v _ vp hvp
  constructor
  · show 0 ≤ (vp - mn).toRat
    rw [Fr.toRat_sub]
    exact sub_nonneg.mpr (pyMin_le v mn vp hmn hmem)
  · show 0 ≤ (mx - vp).toRat
    rw [Fr.toRat_sub]
    exact sub_nonneg.mpr (le_pyMax v mx vp hmx hmem)

/-- C8: every Region the constructor completes, rising or falling, carries a
non-negative repolarization voltage u_p and a non-negative conductivity
voltage u_c: in the rising case `u_p = max(voltage) - voltage[knee]` and
`u_c = voltage[knee] - min(voltage)`, in the falling case mirrored, and the
knee voltage is an element of the window, so both differences are at least
zero. -/
theorem c8_up_uc_nonneg (time voltage dv_dt : List Fr) (increasing : Bool)
    (r : Region) (h : regionInit time voltage dv_dt increasing = .ok r) :
    0 ≤ r.u_p.toRat ∧ 0 ≤ r.u_c.toRat := by
  simp only [regionInit] at h
  rw [bind_ok_iff] at h; obtain ⟨mx, hmx, h⟩ := h
  rw [bind_ok_iff] at h; obtain ⟨mn, hmn, h⟩ := h
  rw [bind_ok_iff] at h; obtain ⟨mr, hmr, h⟩ := h
  rw [bind_ok_iff] at h; obtain ⟨mf, hmf, h⟩ := h
  split at h
  · rw [bind_ok_iff] at h; obtain ⟨c, hc, h⟩ := h
    rw [bind_ok_iff] at h; obtain ⟨diff, hdiff, h⟩ := h
    rw [bind_ok_iff] at h; obtain ⟨tab, htab, h⟩ := h
    rw [bind_ok_iff] at h; obtain ⟨alpha, halpha, h⟩ := h
    rw [pure_ok_iff] at h
    subst h
    exact risingAnalysis_nonneg time voltage dv_dt mx mn _ c hmx hmn hc
  · rw [bind_ok_iff] at h; obtain ⟨c, hc, h⟩ := h
    rw [bind_ok_iff] at h; obtain ⟨diff, hdiff, h⟩ := h
    rw [bind_ok_iff] at h; obtain ⟨tab, htab, h⟩ := h
    rw [bind_ok_iff] at h; obtain ⟨alpha, halpha, h⟩ := h
    rw [pure_ok_iff] at h
    subst h
    exact fallingAnalysis_nonneg time voltage dv_dt mx mn _ c hmx hmn hc

set_option maxRecDepth 100000 in
set_option maxHeartbeats 4000000 in
/-- Closed witness for `c8_up_uc_nonneg`: the rising window of the test
waveform constructs successfully and its u_p and u_c are non-negative. -/
theorem c8_up_uc_nonneg_witness :
    regionInit rtW rvW rdvW true = .ok rW ∧
    0 ≤ rW.u_p.toRat ∧ 0 ≤ rW.u_c.toRat := by
  have h : regionInit rtW rvW rdvW true = .ok rW := rfl
  exact ⟨h, c8_up_uc_nonneg rtW rvW rdvW true rW h⟩


theorem regionStep_append (time voltage dv_dt : List Fr) (bor : List Int)
    (i : Int) (buf : Int) (inc dec : Bool) (acc : List Region) :
    regionStep time voltage dv_dt bor i ⟨buf, inc, dec, acc⟩ =
      Except.map
        (fun s => RegionScanState.mk s.buffer s.increasing s.decreasing
          (acc ++ s.regions))
        (regionStep time voltage dv_dt bor i ⟨buf, inc, dec, []⟩) := by
  unfold regionStep
  by_cases hmem : i ∈ bor
  · simp only [hmem, if_true]
    cases hdv : pyGet dv_dt i with
    | error e => simp [*, Bind.bind, Except.bind, Except.map, pure, Except.pure]
    | ok dvi =>
        simp only [Bind.bind, Except.bind]
        by_cases h1 : 0 < dvi
        · simp only [h1, if_true]
          by_cases hdec : dec
          · subst hdec
            simp only []
            cases hs1 : sliceRange time buf i with
            | error e => simp [*, Bind.bind, Except.bind, Except.map, pure, Except.pure]
            | ok rt =>
                cases hs2 : sliceRange voltage buf i with
                | error e => simp [*, Bind.bind, Except.bind, Except.map, pure, Except.pure]
                | ok rv =>
                    cases hs3 : sliceRange dv_dt buf i with
                    | error e => simp [*, Bind.bind, Except.bind, Except.map, pure, Except.pure]
                    | ok rdv =>
                        cases hri : regionInit rt rv rdv false with
                        | error e =>
                            simp [*, Bind.bind, Except.bind, Except.map, pure, Except.pure]
                        | ok region =>
                            by_cases h2 : dvi < 0
                            · exfalso
                              have ha := (Fr.lt_iff 0 dvi).mp h1
                              have hb := (Fr.lt_iff dvi 0).mp h2
                              rw [Fr.toRat_ofNat 0] at ha hb
                              push_cast at ha hb
                              linarith
                            · simp [*, Bind.bind, Except.bind, Except.map, pure, Except.pure]
          · have hdec2 : dec = false := by
              cases dec
              · rfl
              · exact absurd rfl hdec
            subst hdec2
            by_cases h2 : dvi < 0
            · exfalso
              have ha := (Fr.lt_iff 0 dvi).mp h1
              have hb := (Fr.lt_iff dvi 0).mp h2
              rw [Fr.toRat_ofNat 0] at ha hb
              push_cast at ha hb
              linarith
            · simp [*, Bind.bind, Except.bind, Except.map, pure, Except.pure]
        · simp only [h1, if_false]
          by_cases h2 : dvi < 0
          · simp only [h2, if_true]
            by_cases hinc : inc
            · subst hinc
              cases hs1 : sliceRange time buf i with
              | error e => simp [*, Bind.bind, Except.bind, Except.map, pure, Except.pure]
              | ok rt =>
                  cases hs2 : sliceRange voltage buf i with
                  | error e => simp [*, Bind.bind, Except.bind, Except.map, pure, Except.pure]
                  | ok rv =>
                      cases hs3 : sliceRange dv_dt buf i with
                      | error e => simp [*, Bind.bind, Except.bind, Except.map, pure, Except.pure]
                      | ok rdv =>
                          cases hri : regionInit rt rv rdv true with
                          | error e =>
                              simp [*, Bind.bind, Except.bind, Except.map, pure, Except.pure]
                          | ok region =>
                              simp [*, Bind.bind, Except.bind, Except.map, pure, Except.pure]
            · have hinc2 : inc = false := by
                cases inc
                · rfl
                · exact absurd rfl hinc
              subst hinc2
              simp [*, Bind.bind, Except.bind, Except.map, pure, Except.pure]
          · simp [*, Bind.bind, Except.bind, Except.map, pure, Except.pure]
  · simp [*, hmem, Except.map, pure, Except.pure]

theorem regionLoop_append (time voltage dv_dt : List Fr) (bor : List Int)
    (bl : Int) (n : Nat) :
    ∀ (fuel : Nat) (i : Int) (buf : Int) (inc dec : Bool) (acc : List Region),
      regionLoop time voltage dv_dt bor bl n fuel i ⟨buf, inc, dec, acc⟩ =
        Except.map (fun l => acc ++ l)
          (regionLoop time voltage dv_dt bor bl n fuel i ⟨buf, inc, dec, []⟩)
    := by
  intro fuel
  induction fuel with
  | zero => intro i buf inc dec acc; rfl
  | succ fuel ih =>
      intro i buf inc dec acc
      simp only [regionLoop]
      by_cases hin : i < (n : Int)
      · simp only [hin, if_true]
        rw [regionStep_append]
        cases hstep : regionStep time voltage dv_dt bor i ⟨buf, inc, dec, []⟩
          with
        | error e => simp [Except.map, Bind.bind, Except.bind, pure, Except.pure]
        | ok s0 =>
            obtain ⟨b2, i2, d2, r2⟩ := s0
            simp only [Except.map, Bind.bind, Except.bind]
            by_cases hbl : bl < i
            · simp [hbl, pure, Except.pure, Except.map]
            · simp only [hbl, if_false]
              rw [ih (i + 1) b2 i2 d2 (acc ++ r2), ih (i + 1) b2 i2 d2 r2]
              cases regionLoop time voltage dv_dt bor bl n fuel (i + 1)
                  ⟨b2, i2, d2, []⟩ with
              | error e => rfl
              | ok l => simp [Except.map]
      · simp [hin, Except.map, pure, Except.pure]

/-- C1 amended: `load_data` does not clear the previously held Region list —
it appends the freshly built Regions to it.  A successful load therefore
yields the previous list followed by exactly the batch a load into an empty
manager would produce (and that batch is deterministic, being a function of
the input), with the loaded flag set. -/
theorem c1_load_appends (m : DataManager) (time voltage : List Fr)
    (m2 : DataManager) (h : DataManager.load_data m time voltage = .ok m2) :
    ∃ m1, DataManager.load_data DataManager.init time voltage = .ok m1 ∧
      m2.regions = m.regions ++ m1.regions ∧ m2.data_loaded = true := by
  simp only [DataManager.load_data] at h ⊢
  rw [bind_ok_iff] at h; obtain ⟨dv, hdv, h⟩ := h
  rw [bind_ok_iff] at h; obtain ⟨mx, hmx, h⟩ := h
  rw [bind_ok_iff] at h; obtain ⟨mn, hmn, h⟩ := h
  rw [bind_ok_iff] at h; obtain ⟨e0v, he0, h⟩ := h
  rw [bind_ok_iff] at h; obtain ⟨eL, heL, h⟩ := h
  rw [bind_ok_iff] at h; obtain ⟨bor, hbor, h⟩ := h
  rw [bind_ok_iff] at h; obtain ⟨b0, hb0, h⟩ := h
  rw [bind_ok_iff] at h; obtain ⟨bL, hbL, h⟩ := h
  rw [bind_ok_iff] at h; obtain ⟨regs, hregs, h⟩ := h
  rw [pure_ok_iff] at h
  subst h
  rw [regionLoop_append] at hregs
  rw [map_ok_iff] at hregs
  obtain ⟨regs0, hregs0, hr⟩ := hregs
  refine ⟨⟨regs0, true⟩, ?_, hr.symm, rfl⟩
  simp only [DataManager.init, hdv, hmx, hmn, he0, heL, hbor, hb0, hbL,
    Bind.bind, Except.bind, hregs0]
  rfl

set_option maxRecDepth 100000 in
set_option maxHeartbeats 4000000 in
/-- Closed witness for `c1_load_appends`: a second load of the test waveform
into the already-loaded manager appends the identical one-Region batch. -/
theorem c1_load_appends_witness :
    DataManager.load_data mW timeW voltW = .ok mWW ∧
    ∃ m1, DataManager.load_data DataManager.init timeW voltW = .ok m1 ∧
      mWW.regions = mW.regions ++ m1.regions ∧ mWW.data_loaded = true := by
  have h : DataManager.load_data mW timeW voltW = .ok mWW := rfl
  exact ⟨h, c1_load_appends mW timeW voltW mWW h⟩

set_option maxRecDepth 100000 in
set_option maxHeartbeats 4000000 in
/-- C1 counterexample: on the test waveform a single `load_data` into a fresh
manager yields one Region, but running `load_data` a second time with the
same input yields a manager with two Regions — not bit-identical to the
single-call state, because the method never clears the existing list. -/
theorem c1_double_load_counterexample :
    loadCount (DataManager.load_data DataManager.init timeW voltW) = some 1 ∧
    loadCount (do
      let m1 ← DataManager.load_data DataManager.init timeW voltW
      DataManager.load_data m1 timeW voltW) = some 2 := by
  constructor
  · decide
  · decide


/-- C5 amended: `clear_data` empties the Region list but does not touch the
data-loaded flag, so `is_data_loaded` keeps returning whatever it returned
before the call. -/
theorem c5_clear_keeps_flag (m : DataManager) :
    (DataManager.clear_data m).regions = [] ∧
    (DataManager.clear_data m).is_data_loaded = m.data_loaded :=
  ⟨rfl, rfl⟩

set_option maxRecDepth 100000 in
set_option maxHeartbeats 4000000 in
/-- C5 counterexample: after a successful load of the test waveform,
`clear_data` leaves the Region list empty but `is_data_loaded` still returns
true, contradicting the claim that the flag is reset to false. -/
theorem c5_flag_counterexample :
    loadCount (DataManager.load_data DataManager.init timeW voltW)
      = some 1 ∧
    (DataManager.clear_data mW).regions = [] ∧
    (DataManager.clear_data mW).is_data_loaded = true := by
  refine ⟨by decide, rfl, by decide⟩

set_option maxRecDepth 100000 in
/-- C2: on a perfectly flat waveform no extremum qualifies, `ext_indexes`
stays empty, and `load_data` fails with the out-of-range index fault at
`ext_indexes[0]` — there is no explicit no-transitions-detected condition. -/
theorem c2_flat_load_index_fault :
    DataManager.load_data DataManager.init flatT flatV
      = .error .indexError := by
  rfl

set_option maxRecDepth 100000 in
/-- C4: the index walks are not guarded.  On the accelerating-rise waveform
the backward border walk reaches `j = 0` with the derivative still positive
at every earlier sample, reads Python's `dv_dt[-1]` (the last sample, which
is 0 there) and returns border 0 — it wraps instead of failing; the
spec-modelled guarded walk fails cleanly with IndexError on the same input.
And on a region whose derivative never turns back, the knee-point scan reads
`dv_dt[i + 1]` one past the last sample and raises IndexError. -/
theorem c4_unguarded_walks :
    (0 : Fr) < nthF wrapDv 0 ∧
    nthF wrapDv (wrapDv.length - 1) ≤ 0 ∧
    whileBorderUp wrapDv (2 * wrapDv.length + 2) 2 = .ok 0 ∧
    whileBorderUpGuarded wrapDv (2 * wrapDv.length + 2) 2
      = .error .indexError ∧
    resErr (regionInit kneeT kneeV kneeDv true) = some .indexError := by
  refine ⟨by decide, by decide, by decide, by decide, by decide⟩

set_option maxRecDepth 100000 in
/-- C6: on a region input whose post-knee samples all fall inside the 5
percent guard bands the retained normalization set is empty, and construction
dies with the unguarded ValueError that `np.gradient` raises on an empty
array — no Region-tied numerical-failure condition is ever produced. -/
theorem c6_empty_retained_set_fault :
    resErr (regionInit exclT exclV exclDv true) = some .valueError := by
  decide

/-- C9: the parameter setters convert units exactly once at the boundary:
thickness 3.0 µm is stored as 3.0e-6 m, area 100.0 mm² as 100.0e-6 m²,
capacitance 30.0 nF as 30.0e-9 F, and tilt angle 45.0° as π/4 rad. -/
theorem c9_unit_conversions (r : Region) :
    ((r.update_thickness 3).d).toRat = 3 / 1000000 ∧
    ((r.update_area 100).S).toRat = 100 / 1000000 ∧
    ((r.update_capacitance 30).C).toRat = 30 / 1000000000 ∧
    (r.update_tilt_angle 45).t_ang = Real.pi / 4 := by
  refine ⟨?_, ?_, ?_, ?_⟩
  · show ((3 : Fr) / 1000000).toRat = 3 / 1000000
    rw [Fr.toRat_div, Fr.toRat_ofNat, Fr.toRat_ofNat]
    norm_num
  · show ((100 : Fr) / 1000000).toRat = 100 / 1000000
    rw [Fr.toRat_div, Fr.toRat_ofNat, Fr.toRat_ofNat]
    norm_num
  · show ((30 : Fr) / 1000000000).toRat = 30 / 1000000000
    rw [Fr.toRat_div, Fr.toRat_ofNat, Fr.toRat_ofNat]
    norm_num
  · show npRadians 45 = Real.pi / 4
    unfold npRadians
    rw [Fr.toReal_ofNat]
    push_cast
    ring


theorem Fr.toReal_mul (a b : Fr) : (a * b).toReal = a.toReal * b.toReal := by
  rw [Fr.toReal_def, Fr.toReal_def, Fr.toReal_def, Fr.toRat_mul]
  push_cast
  ring

theorem Fr.toReal_div (a b : Fr) : (a / b).toReal = a.toReal / b.toReal := by
  rw [Fr.toReal_def, Fr.toReal_def, Fr.toReal_def, Fr.toRat_div]
  push_cast
  ring

/-- C3 amended: `get_sp` recomputes the spontaneous polarization from the
current parameters on every call and stores it in the `s_p` attribute;
`get_rv` and `get_da` do not recompute it — they read the cached `s_p` from
the most recent `get_sp` call (initially 0).  In particular the claimed
formulas for `get_rv` and `get_da` hold exactly when `get_rv`/`get_da` are
read on the state left by `get_sp`. -/
theorem c3_derived_reads (r : Region) :
    (Region.get_sp r).1.toRat =
      r.u_p.toRat * r.C.toRat / (2 * r.S.toRat) * 100000 ∧
    ((Region.get_sp r).2).s_p.toRat =
      r.u_p.toRat * r.C.toRat / (2 * r.S.toRat) ∧
    (Region.get_rv r).toRat =
      r.tau.toRat * r.s_p.toRat * r.u_in.toRat / r.d.toRat * 10 ∧
    (Region.get_rv ((Region.get_sp r).2)).toRat =
      r.tau.toRat * (r.u_p.toRat * r.C.toRat / (2 * r.S.toRat)) *
        r.u_in.toRat / r.d.toRat * 10 ∧
    Region.get_da ((Region.get_sp r).2) =
      r.alpha.toReal * (r.u_p.toReal * r.C.toReal / (2 * r.S.toReal)) *
          r.d.toReal /
        (r.u_in.toReal * r.e0.toReal * Real.sin r.t_ang ^ 2) := by
  refine ⟨?_, ?_, ?_, ?_, ?_⟩
  · show ((r.u_p * r.C / (2 * r.S)) * 100000).toRat = _
    simp only [Fr.toRat_mul, Fr.toRat_div]
    repeat rw [Fr.toRat_ofNat]
    norm_num
  · show (r.u_p * r.C / (2 * r.S)).toRat = _
    rw [Fr.toRat_div, Fr.toRat_mul, Fr.toRat_mul, Fr.toRat_ofNat]
    norm_num
  · show ((r.tau * r.s_p * r.u_in / r.d) * 10).toRat = _
    simp only [Fr.toRat_mul, Fr.toRat_div]
    repeat rw [Fr.toRat_ofNat]
    norm_num
  · show ((r.tau * (r.u_p * r.C / (2 * r.S)) * r.u_in / r.d) * 10).toRat = _
    simp only [Fr.toRat_mul, Fr.toRat_div]
    repeat rw [Fr.toRat_ofNat]
    norm_num
  · show (r.alpha * (r.u_p * r.C / (2 * r.S)) * r.d).toReal /
        (r.u_in.toReal * r.e0.toReal * Real.sin r.t_ang ^ 2) = _
    simp only [Fr.toReal_mul, Fr.toReal_div]
    repeat rw [Fr.toReal_ofNat]
    norm_num

set_option maxRecDepth 100000 in
set_option maxHeartbeats 4000000 in
/-- C3 counterexample: on the Region built by the pipeline from the test
waveform, `get_rv` — read before any `get_sp` call — returns 0 because the
`s_p` attribute still holds its initial value 0, while the claimed formula
`(tau * ((u_p * C) / (2 * S)) * u_in / d) * 10` evaluated on the same stored
values is nonzero. -/
theorem c3_stale_cache_counterexample :
    (Region.get_rv rW).toRat = 0 ∧
    rW.tau.toRat * (rW.u_p.toRat * rW.C.toRat / (2 * rW.S.toRat)) *
      rW.u_in.toRat / rW.d.toRat * 10 ≠ 0 := by
  constructor
  · rw [Fr.toRat_eq_zero_iff]
    decide
  · have h : rW.tau.toRat * (rW.u_p.toRat * rW.C.toRat / (2 * rW.S.toRat)) *
        rW.u_in.toRat / rW.d.toRat * 10 =
        ((rW.tau * (rW.u_p * rW.C / (2 * rW.S)) * rW.u_in / rW.d) * 10).toRat
        := by
      simp only [Fr.toRat_mul, Fr.toRat_div]
      repeat rw [Fr.toRat_ofNat]
      norm_num
    rw [h]
    intro hc
    rw [Fr.toRat_eq_zero_iff] at hc
    revert hc
    decide


theorem get_all_empty (m : DataManager) (h : m.regions = []) :
    DataManager.get_sp m = .error .zeroDivisionError ∧
    DataManager.get_rv m = .error .zeroDivisionError ∧
    DataManager.get_da m = .error .zeroDivisionError := by
  unfold DataManager.get_sp DataManager.get_rv DataManager.get_da
  rw [h]
  refine ⟨?_, ?_, ?_⟩
  · simp [pyDiv, Bind.bind, Except.bind]
  · simp [pyDiv, Bind.bind, Except.bind]
  · simp

theorem get_rv_mean (m : DataManager) (hne : m.regions ≠ []) :
    Except.map Fr.toRat (DataManager.get_rv m) =
      .ok ((m.regions.map (fun r => (Region.get_rv r).toRat)).sum /
        (m.regions.length : ℚ)) := by
  unfold DataManager.get_rv
  have h1 : m.regions.length ≠ 0 := fun hc => hne (List.length_eq_zero.mp hc)
  have hnum : ((m.regions.map Region.get_rv).length : Int) ≠ 0 := by
    rw [List.length_map]
    exact_mod_cast h1
  simp only [pyDiv, Bind.bind, Except.bind]
  rw [if_neg hnum]
  simp only [Except.map]
  congr 1
  rw [Fr.toRat_div, sumList_toRat, Fr.toRat_mk, List.map_map]
  rw [List.length_map]
  push_cast
  rw [div_one]
  rfl

theorem get_sp_single (m : DataManager) (r : Region) (h : m.regions = [r]) :
    Except.map (fun p => (Prod.fst p).toRat) (DataManager.get_sp m) =
      .ok ((Region.get_sp r).1.toRat) := by
  unfold DataManager.get_sp
  rw [h]
  simp only [List.map_cons, List.map_nil, List.length_cons, List.length_nil,
    pyDiv, Bind.bind, Except.bind]
  rw [if_neg (by norm_num)]
  simp only [pure, Except.pure, Except.map]
  congr 1
  rw [Fr.toRat_div, sumList_toRat, Fr.toRat_mk]
  simp

theorem get_da_single (m : DataManager) (r : Region) (h : m.regions = [r]) :
    DataManager.get_da m = .ok (Region.get_da r) := by
  unfold DataManager.get_da
  rw [h]
  simp

theorem get_sp_mean (m : DataManager) (hne : m.regions ≠ []) :
    Except.map (fun p => (Prod.fst p).toRat) (DataManager.get_sp m) =
      .ok ((m.regions.map (fun r => (Region.get_sp r).1.toRat)).sum /
        (m.regions.length : ℚ)) := by
  unfold DataManager.get_sp
  have h1 : m.regions.length ≠ 0 := fun hc => hne (List.length_eq_zero.mp hc)
  have hnum :
      (((m.regions.map Region.get_sp).map Prod.fst).length : Int) ≠ 0 := by
    rw [List.length_map, List.length_map]
    exact_mod_cast h1
  simp only [pyDiv, Bind.bind, Except.bind]
  rw [if_neg hnum]
  simp only [pure, Except.pure, Except.map]
  congr 1
  rw [Fr.toRat_div, sumList_toRat, Fr.toRat_mk, List.map_map, List.map_map]
  rw [List.length_map, List.length_map]
  push_cast
  rw [div_one]
  rfl

theorem get_da_mean (m : DataManager) (hne : m.regions ≠ []) :
    DataManager.get_da m =
      .ok ((m.regions.map Region.get_da).sum / (m.regions.length : ℝ)) := by
  unfold DataManager.get_da
  rw [if_neg (fun hc => hne (List.length_eq_zero.mp hc))]

/-- C7: the manager's aggregate getters take the arithmetic mean of the
per-Region derived values: on an empty Region list all three raise
ZeroDivisionError at the `sum / len` step instead of returning a value, on a
single Region they return exactly that Region's own derived value, and in
general `get_rv` returns the mean of the per-Region values. -/
theorem c7_aggregate_means :
    (∀ m : DataManager, m.regions = [] →
      DataManager.get_sp m = .error .zeroDivisionError ∧
      DataManager.get_rv m = .error .zeroDivisionError ∧
      DataManager.get_da m = .error .zeroDivisionError) ∧
    (∀ (m : DataManager) (r : Region), m.regions = [r] →
      Except.map (fun p => (Prod.fst p).toRat) (DataManager.get_sp m) =
        .ok ((Region.get_sp r).1.toRat) ∧
      Except.map Fr.toRat (DataManager.get_rv m) =
        .ok ((Region.get_rv r).toRat) ∧
      DataManager.get_da m = .ok (Region.get_da r)) ∧
    (∀ m : DataManager, m.regions ≠ [] →
      Except.map (fun p => (Prod.fst p).toRat) (DataManager.get_sp m) =
        .ok ((m.regions.map (fun r => (Region.get_sp r).1.toRat)).sum /
          (m.regions.length : ℚ)) ∧
      Except.map Fr.toRat (DataManager.get_rv m) =
        .ok ((m.regions.map (fun r => (Region.get_rv r).toRat)).sum /
          (m.regions.length : ℚ)) ∧
      DataManager.get_da m =
        .ok ((m.regions.map Region.get_da).sum / (m.regions.length : ℝ))) := by
  refine ⟨get_all_empty, ?_,
    fun m hne => ⟨get_sp_mean m hne, get_rv_mean m hne, get_da_mean m hne⟩⟩
  intro m r h
  refine ⟨get_sp_single m r h, ?_, get_da_single m r h⟩
  have hne : m.regions ≠ [] := by
    rw [h]
    exact List.cons_ne_nil r []
  have hm := get_rv_mean m hne
  rw [h] at hm
  simpa using hm

/-- Closed witness for `c7_aggregate_means`: on the empty manager `get_rv`
fails with ZeroDivisionError, and on a one-Region manager it returns exactly
that Region's own rotational-viscosity value. -/
theorem c7_aggregate_means_witness :
    DataManager.get_rv ⟨[], false⟩ = .error .zeroDivisionError ∧
    Except.map Fr.toRat (DataManager.get_rv ⟨[rW], true⟩) =
      .ok ((Region.get_rv rW).toRat) :=
  ⟨(c7_aggregate_means.1 ⟨[], false⟩ rfl).2.1,
   (c7_aggregate_means.2.1 ⟨[rW], true⟩ rW rfl).2.1⟩

end FLC
